import Mathlib

/-!
Shallow embedding of the Tailscale Test Agent (`cmd/tta/tta.go`): the
connection lifecycle tracker (`hs.ConnState`), the reconnection supervisor
loop in `main`, the intake channel `conns`, the reverse-dial listener
`chanListener`, the firewall handler, and the bounded log buffer.
Connections are identified abstractly by natural numbers; Go channels of
capacity one are modelled by their occupancy; the whole supervisor system is
a labelled small-step transition relation.
-/

/-- Connections (`net.Conn`), identified abstractly. -/
abbrev Conn := Nat

/-- The phases of `net/http`'s `ConnState` hook.  The source's switch has a
`StateNew` arm and a default arm covering all the others. -/
inductive HttpConnState
  | stateNew
  | stateActive
  | stateIdle
  | stateHijacked
  | stateClosed
deriving DecidableEq

/-- State shared by the lifecycle tracker: `newSet` (the conns in `StateNew`,
guarded by `stMu`) and the occupancy of the capacity-1 channel `needConnCh`. -/
structure TrackerSt where
  newSet : Finset Conn
  needConn : Nat
deriving DecidableEq

/-- Non-blocking send on a channel of capacity 1: the body of
`select { case needConnCh <- true: default: }` — delivers when a buffer slot
is free, otherwise drops the value. -/
def sendNonBlocking (occ : Nat) : Nat :=
  if occ < 1 then occ + 1 else occ

/-- The `hs.ConnState` callback from the source: under `stMu`, record `oldLen`,
add the conn to `newSet` on `StateNew` and delete it otherwise, then fire the
non-blocking send on `needConnCh` exactly when `oldLen != 0 && len(newSet) == 0`.
Returns the updated state and whether the send statement ran. -/
def hsConnState (st : TrackerSt) (c : Conn) (s : HttpConnState) : TrackerSt × Bool :=
  let oldLen := st.newSet.card
  let newSet := if s = HttpConnState.stateNew then insert c st.newSet else st.newSet.erase c
  if oldLen ≠ 0 ∧ newSet.card = 0 then
    (⟨newSet, sendNonBlocking st.needConn⟩, true)
  else
    (⟨newSet, st.needConn⟩, false)

/-- Events touching the tracker state: an invocation of the `ConnState`
callback, or the supervisor draining one signal with `<-needConnCh`. -/
inductive TEvent
  | obs (c : Conn) (s : HttpConnState)
  | drain

/-- One tracker-level event. -/
def tstep (st : TrackerSt) (e : TEvent) : TrackerSt :=
  match e with
  | .obs c s => (hsConnState st c s).1
  | .drain => ⟨st.newSet, st.needConn - 1⟩

/-- A sequence of tracker-level events. -/
def trun (st : TrackerSt) (es : List TEvent) : TrackerSt :=
  es.foldl tstep st

/-- `const maxSize = 1 << 20` from `logBuffer.Write`. -/
def maxSize : Nat := 2 ^ 20

/-- `logBuffer.Write` from the source: if `lb.buf.Len() > maxSize` report
success without writing; otherwise `lb.buf.Write(p)`, which appends all of `p`
and returns `(len(p), nil)`.  Result: new contents, reported count, error. -/
def logBufferWrite (buf : List Nat) (p : List Nat) : List Nat × Nat × Option String :=
  if buf.length > maxSize then
    (buf, p.length, none)
  else
    (buf ++ p, p.length, none)

/-- A sequence of writes to the log buffer (contents only). -/
def writeAll (buf : List Nat) (ps : List (List Nat)) : List Nat :=
  ps.foldl (fun b p => (logBufferWrite b p).1) buf

/-- A Go channel of `net.Conn` as seen by a receiver: its buffered queue and
whether it has been closed. -/
structure Chan where
  queue : List Conn
  closed : Bool
deriving DecidableEq

/-- Go receive `c, ok := <-ch`: a buffered value is delivered with `ok = true`
even after close; a closed and drained channel yields the zero value with
`ok = false`; an open empty channel blocks (`none`). -/
def chanRecv (ch : Chan) : Option (Chan × Option Conn) :=
  match ch.queue with
  | c :: rest => some (⟨rest, ch.closed⟩, some c)
  | [] => if ch.closed then some (ch, none) else none

/-- `chanListener.Accept` from the source: receive from the channel; if
`!ok` return `errors.New("closed")`, else return the conn. -/
def chanListenerAccept (ch : Chan) : Option (Chan × Except String Conn) :=
  match chanRecv ch with
  | none => none
  | some (ch', some c) => some (ch', Except.ok c)
  | some (ch', none) => some (ch', Except.error "closed")

/-- An HTTP response as a status code and a body. -/
structure HttpResp where
  status : Nat
  body : String
deriving DecidableEq

/-- Go stdlib `http.Error(w, msg, code)`: sets the status code and writes the
message followed by a newline (`fmt.Fprintln`). -/
def httpError (msg : String) (code : Nat) : HttpResp :=
  ⟨code, msg ++ "\n"⟩

/-- `addFirewallHandler` from the source.  The platform hook `addFirewall` is
`none` when unset (nil), otherwise a function yielding an error text or `none`
for success. -/
def addFirewallHandler (addFirewall : Option (Unit → Option String)) : HttpResp :=
  match addFirewall with
  | none => httpError "firewall not supported" 500
  | some f =>
    match f () with
    | some e => httpError e 500
    | none => ⟨200, "OK\n"⟩

/-- The supervisor's failure-logging state: `lastErr` and the log lines
emitted so far (only the `Connect failure` lines are tracked). -/
structure SupLog where
  lastErr : String
  logged : List String
deriving DecidableEq

/-- The error branch of the supervisor loop: `s := err.Error();
if s != lastErr { log.Printf(...) }; lastErr = s`. -/
def failStep (st : SupLog) (s : String) : SupLog :=
  ⟨s, if s ≠ st.lastErr then st.logged ++ [s] else st.logged⟩

/-- Processing a sequence of dial-failure error texts from the loop's initial
state (`var lastErr string` starts as the empty string). -/
def failRun (es : List String) : SupLog :=
  es.foldl failStep ⟨"", []⟩

/-- Program counter of the supervisor loop in `main`:
`sWait` is `<-needConnCh`; `sDial` is the `connect()` call; `sPush c` is
`conns <- c` holding the freshly dialed conn; `sSleep` is the
`time.Sleep(time.Second)` of the error branch, after which the loop
`continue`s back to `<-needConnCh`. -/
inductive SupPhase
  | sWait
  | sDial
  | sPush (c : Conn)
  | sSleep
deriving DecidableEq

/-- Whole-system state: the tracker (with the `needConnCh` occupancy), the
contents of the capacity-1 intake channel `conns`, the conns accepted by
`hs.Serve` whose `StateNew` callback has not run yet, the supervisor's
program counter and logging state, and a count of dial attempts started. -/
structure Sys where
  tracker : TrackerSt
  intake : List Conn
  accepted : Finset Conn
  sup : SupPhase
  lastErr : String
  logged : List String
  dials : Nat

/-- One step of the whole system, mirroring the source line by line:
the supervisor loop of `main`, `hs.Serve` accepting from `chanListener(conns)`,
and the server invoking `hs.ConnState` for accepted conns (`obsNew` once per
accepted conn; `obsOther` for every later transition, allowed for any conn
and any non-`StateNew` phase, which over-approximates the server's behavior). -/
inductive Step : Sys → Sys → Prop
  | startDial (s : Sys) (h : s.sup = SupPhase.sWait) (hc : 1 ≤ s.tracker.needConn) :
      Step s { s with tracker := ⟨s.tracker.newSet, s.tracker.needConn - 1⟩,
                      sup := SupPhase.sDial, dials := s.dials + 1 }
  | dialOk (s : Sys) (c : Conn) (h : s.sup = SupPhase.sDial) :
      Step s { s with sup := SupPhase.sPush c }
  | dialFail (s : Sys) (e : String) (h : s.sup = SupPhase.sDial) :
      Step s { s with sup := SupPhase.sSleep, lastErr := e,
                      logged := if e ≠ s.lastErr then s.logged ++ [e] else s.logged }
  | wake (s : Sys) (h : s.sup = SupPhase.sSleep) :
      Step s { s with sup := SupPhase.sWait }
  | push (s : Sys) (c : Conn) (h : s.sup = SupPhase.sPush c) (hq : s.intake.length < 1) :
      Step s { s with intake := s.intake ++ [c], sup := SupPhase.sWait }
  | accept (s : Sys) (c : Conn) (rest : List Conn) (h : s.intake = c :: rest) :
      Step s { s with intake := rest, accepted := insert c s.accepted }
  | obsNew (s : Sys) (c : Conn) (h : c ∈ s.accepted) :
      Step s { s with accepted := s.accepted.erase c,
                      tracker := (hsConnState s.tracker c HttpConnState.stateNew).1 }
  | obsOther (s : Sys) (c : Conn) (ph : HttpConnState) (h : ph ≠ HttpConnState.stateNew) :
      Step s { s with tracker := (hsConnState s.tracker c ph).1 }

/-- The state right after `needConnCh <- true` seeds the first signal, as the
supervisor loop is entered. -/
def sys0 : Sys :=
  ⟨⟨∅, 1⟩, [], ∅, SupPhase.sWait, "", [], 0⟩

/-- States the system can reach from startup. -/
def Reachable (s : Sys) : Prop :=
  Relation.ReflTransGen Step sys0 s

/-- Whether the supervisor currently holds a conn or is inside a dial. -/
def phaseW : SupPhase → Nat
  | SupPhase.sDial => 1
  | SupPhase.sPush _ => 1
  | _ => 0

/-- Count of "connection obligations" alive anywhere in the system: pending
signals, tracked conns, conns in the intake channel, accepted conns, and a
dial/push in progress. -/
def weight (s : Sys) : Nat :=
  s.tracker.needConn + s.tracker.newSet.card + s.intake.length
    + s.accepted.card + phaseW s.sup

/-- The supervisor's logging state is coherent: the last logged line is the
current `lastErr`, or `lastErr` still holds its initial empty-string value. -/
def goodLog (st : SupLog) : Prop :=
  st.logged.getLast? = some st.lastErr ∨ st.lastErr = ""

/-- The system state after the startup signal is consumed and the first
`connect()` is in flight. -/
def sysMid1 : Sys :=
  ⟨⟨∅, 0⟩, [], ∅, SupPhase.sDial, "", [], 1⟩

/-- The system state after the first dial succeeds with conn 5, just before
`conns <- c`. -/
def sysMid2 : Sys :=
  ⟨⟨∅, 0⟩, [], ∅, SupPhase.sPush 5, "", [], 1⟩

/-- The system state after the first dialed conn has been delivered to the
intake channel and the supervisor is back at `<-needConnCh`. -/
def sysDelivered : Sys :=
  ⟨⟨∅, 0⟩, [5], ∅, SupPhase.sWait, "", [], 1⟩

/-- The system state right after the first dial attempt fails: the supervisor
is inside its 1-second sleep, the startup signal it consumed is gone, and no
connection exists anywhere that could cause `needConnCh` to be signalled
again. -/
def sysStuck : Sys :=
  ⟨⟨∅, 0⟩, [], ∅, SupPhase.sSleep, "connection refused", ["connection refused"], 1⟩

lemma sendNonBlocking_le (n : Nat) : sendNonBlocking n ≤ n + 1 := by
  unfold sendNonBlocking; split <;> omega

lemma sendNonBlocking_le_one (n : Nat) (h : n ≤ 1) : sendNonBlocking n ≤ 1 := by
  unfold sendNonBlocking; split <;> omega

/-- The callback never fires on `StateNew`: the set it just inserted into is
non-empty. -/
lemma hsConnState_new_eq (st : TrackerSt) (c : Conn) :
    hsConnState st c HttpConnState.stateNew = (⟨insert c st.newSet, st.needConn⟩, false) := by
  have h2 : ¬ (insert c st.newSet).card = 0 := by
    simp [Finset.card_eq_zero]
  simp [hsConnState, h2]

/-- Signals plus tracked conns never grow across a callback, except that a
`StateNew` call can add one tracked conn. -/
lemma hsConnState_sum_le (st : TrackerSt) (c : Conn) (s : HttpConnState) :
    ((hsConnState st c s).1).needConn + ((hsConnState st c s).1).newSet.card
      ≤ st.needConn + st.newSet.card + (if s = HttpConnState.stateNew then 1 else 0) := by
  by_cases hs : s = HttpConnState.stateNew
  · subst hs
    rw [hsConnState_new_eq, if_pos rfl]
    have := Finset.card_insert_le c st.newSet
    dsimp only
    omega
  · have hered := Finset.card_erase_le (s := st.newSet) (a := c)
    have hsend := sendNonBlocking_le st.needConn
    simp only [hsConnState, if_neg hs]
    split
    · next hcond =>
      obtain ⟨h1, h2⟩ := hcond
      dsimp only
      omega
    · dsimp only
      omega

/-- Each system step preserves or decreases the weight (a dial failure
destroys one obligation: the drained signal is lost). -/
lemma weight_step_le {s s' : Sys} (h : Step s s') : weight s' ≤ weight s := by
  cases h with
  | startDial hw hc =>
      simp only [weight, phaseW, hw]
      omega
  | dialOk c hd =>
      simp only [weight, phaseW, hd]
      omega
  | dialFail e hd =>
      simp only [weight, phaseW, hd]
      omega
  | wake hs =>
      simp only [weight, phaseW, hs]
      omega
  | push c hp hq =>
      simp only [weight, phaseW, hp, List.length_append, List.length_cons,
        List.length_nil]
      omega
  | accept c rest hi =>
      have hins := Finset.card_insert_le c s.accepted
      simp only [weight, phaseW, hi, List.length_cons]
      omega
  | obsNew c hc =>
      have hins := Finset.card_insert_le c s.tracker.newSet
      have hmem : (s.accepted.erase c).card = s.accepted.card - 1 :=
        Finset.card_erase_of_mem hc
      have hpos : 1 ≤ s.accepted.card := Finset.card_pos.mpr ⟨c, hc⟩
      simp only [weight, phaseW, hsConnState_new_eq]
      omega
  | obsOther c ph hp =>
      have hsum := hsConnState_sum_le s.tracker c ph
      simp only [if_neg hp] at hsum
      simp only [weight, phaseW]
      omega

/-- At most one connection obligation is ever alive. -/
lemma weight_reachable {s : Sys} (h : Reachable s) : weight s ≤ 1 := by
  induction h with
  | refl => simp [weight, sys0, phaseW]
  | tail _ hstep ih => exact le_trans (weight_step_le hstep) ih

/-- The dial count only moves when a step consumes a pending signal. -/
lemma step_dials {s s' : Sys} (h : Step s s') :
    s'.dials = s.dials ∨ 1 ≤ s.tracker.needConn := by
  cases h with
  | startDial hw hc => exact Or.inr hc
  | dialOk c hd => exact Or.inl rfl
  | dialFail e hd => exact Or.inl rfl
  | wake hs => exact Or.inl rfl
  | push c hp hq => exact Or.inl rfl
  | accept c rest hi => exact Or.inl rfl
  | obsNew c hc => exact Or.inl rfl
  | obsOther c ph hp => exact Or.inl rfl

lemma reachable_sysDelivered : Reachable sysDelivered :=
  Relation.ReflTransGen.tail
    (Relation.ReflTransGen.tail
      (Relation.ReflTransGen.tail Relation.ReflTransGen.refl
        (Step.startDial sys0 rfl (by decide)))
      (Step.dialOk sysMid1 5 rfl))
    (Step.push sysMid2 5 rfl (by decide))

lemma reachable_sysStuck : Reachable sysStuck :=
  Relation.ReflTransGen.tail
    (Relation.ReflTransGen.tail Relation.ReflTransGen.refl
      (Step.startDial sys0 rfl (by decide)))
    (Step.dialFail sysMid1 "connection refused" rfl)

/-- Once the weight has dropped to zero, it stays zero and the dial count is
frozen: no step can ever produce a signal, so no dial attempt can start. -/
lemma stuck_no_dial {a b : Sys} (h : Relation.ReflTransGen Step a b)
    (ha : weight a = 0) : b.dials = a.dials ∧ weight b = 0 := by
  induction h with
  | refl => exact ⟨rfl, ha⟩
  | tail hab hbc ih =>
    obtain ⟨hd, hw⟩ := ih
    have hle := weight_step_le hbc
    cases step_dials hbc with
    | inl he => exact ⟨he.trans hd, by omega⟩
    | inr hn =>
      exfalso
      unfold weight at hw
      omega

/-- Claim C3: `observe(c, phase)` on the lifecycle tracker adds `c` to the
tracked set when the phase is `new` and removes it (if present) otherwise, and
it fires the need-connection signal — a non-blocking send that is a no-op when
a signal is already pending — exactly when the tracked set was non-empty
immediately before the call and is empty immediately after. -/
theorem observe_tracks_and_signals (st : TrackerSt) (c : Conn) (s : HttpConnState) :
    ((hsConnState st c s).1.newSet
        = if s = HttpConnState.stateNew then insert c st.newSet else st.newSet.erase c)
    ∧ ((hsConnState st c s).2 = true ↔ st.newSet ≠ ∅ ∧ (hsConnState st c s).1.newSet = ∅)
    ∧ ((hsConnState st c s).1.needConn
        = if (hsConnState st c s).2 then sendNonBlocking st.needConn else st.needConn)
    ∧ (st.needConn = 1 → (hsConnState st c s).1.needConn = 1) := by
  by_cases hv : st.newSet.card ≠ 0 ∧
      (if s = HttpConnState.stateNew then insert c st.newSet else st.newSet.erase c).card = 0
  · have hres : hsConnState st c s
        = (⟨if s = HttpConnState.stateNew then insert c st.newSet else st.newSet.erase c,
            sendNonBlocking st.needConn⟩, true) := by
      simp only [hsConnState]
      rw [if_pos hv]
    obtain ⟨h1, h2⟩ := hv
    have hne : st.newSet ≠ ∅ := fun he => h1 (by simp [he])
    have hemp := Finset.card_eq_zero.mp h2
    rw [hres]
    exact ⟨rfl, ⟨fun _ => ⟨hne, hemp⟩, fun _ => rfl⟩, rfl,
      fun h0 => by simp [sendNonBlocking, h0]⟩
  · have hres : hsConnState st c s
        = (⟨if s = HttpConnState.stateNew then insert c st.newSet else st.newSet.erase c,
            st.needConn⟩, false) := by
      simp only [hsConnState]
      rw [if_neg hv]
    rw [hres]
    refine ⟨rfl, ⟨fun hf => Bool.noConfusion hf, ?_⟩, rfl, fun h0 => h0⟩
    rintro ⟨hne, hemp⟩
    exact (hv ⟨fun h0 => hne (Finset.card_eq_zero.mp h0),
      Finset.card_eq_zero.mpr hemp⟩).elim

/-- Witness for `observe_tracks_and_signals`: a conn leaving `new` while it is
the only tracked conn, with a signal already pending, keeps the pending count
at one. -/
theorem observe_tracks_and_signals_witness :
    (hsConnState ⟨{3}, 1⟩ 3 HttpConnState.stateActive).1.needConn = 1 :=
  (observe_tracks_and_signals ⟨{3}, 1⟩ 3 HttpConnState.stateActive).2.2.2 rfl

/-- Claim C10: the callback invoked with the `new` phase never fires the
need-connection signal: it has just inserted the conn, so the tracked set is
non-empty and the non-empty-to-empty condition cannot hold. -/
theorem new_conn_never_fires_signal (st : TrackerSt) (c : Conn) :
    (hsConnState st c HttpConnState.stateNew).2 = false
    ∧ (hsConnState st c HttpConnState.stateNew).1.needConn = st.needConn
    ∧ (hsConnState st c HttpConnState.stateNew).1.newSet.Nonempty := by
  rw [hsConnState_new_eq]
  exact ⟨rfl, rfl, Finset.insert_nonempty c st.newSet⟩

lemma tstep_needConn_le (st : TrackerSt) (e : TEvent) (h : st.needConn ≤ 1) :
    (tstep st e).needConn ≤ 1 := by
  cases e with
  | obs c s =>
    simp only [tstep, hsConnState]
    split <;> split <;>
      first
      | exact sendNonBlocking_le_one st.needConn h
      | exact h
  | drain =>
    simp only [tstep]
    omega

/-- Claim C4: across any sequence of callback invocations and supervisor
drains, at most one unconsumed signal is ever pending in `needConnCh`, and a
send attempted while one is pending leaves the channel unchanged (the
duplicate is dropped, not queued). -/
theorem signal_pending_at_most_one (st : TrackerSt) (es : List TEvent)
    (h : st.needConn ≤ 1) :
    (trun st es).needConn ≤ 1 ∧ ∀ n, 1 ≤ n → sendNonBlocking n = n := by
  constructor
  · induction es generalizing st with
    | nil => exact h
    | cons e t ih =>
      simp only [trun, List.foldl_cons] at ih ⊢
      exact ih (tstep st e) (tstep_needConn_le st e h)
  · intro n hn
    unfold sendNonBlocking
    rw [if_neg (by omega)]

/-- Witness for `signal_pending_at_most_one`: two successive
non-empty-to-empty transitions without a drain still leave at most one
pending signal. -/
theorem signal_pending_at_most_one_witness :
    (trun ⟨∅, 0⟩ [TEvent.obs 1 HttpConnState.stateNew,
      TEvent.obs 1 HttpConnState.stateActive,
      TEvent.obs 2 HttpConnState.stateNew,
      TEvent.obs 2 HttpConnState.stateClosed]).needConn ≤ 1
    ∧ ∀ n, 1 ≤ n → sendNonBlocking n = n :=
  signal_pending_at_most_one ⟨∅, 0⟩ _ (by decide)

/-- Claim C9: `logBuffer.Write` is all-or-nothing and always reports full
success: if the buffered length at entry is at most `maxSize` all of `p` is
appended, if it strictly exceeds `maxSize` nothing is appended, and in both
cases the reported result is `(len(p), nil)`. -/
theorem write_all_or_nothing (buf p : List Nat) :
    (buf.length ≤ maxSize → (logBufferWrite buf p).1 = buf ++ p)
    ∧ (maxSize < buf.length → (logBufferWrite buf p).1 = buf)
    ∧ (logBufferWrite buf p).2.1 = p.length
    ∧ (logBufferWrite buf p).2.2 = none := by
  unfold logBufferWrite
  split
  · next h => exact ⟨fun hle => absurd hle (by omega), fun _ => rfl, rfl, rfl⟩
  · next h => exact ⟨fun _ => rfl, fun hlt => absurd hlt (by omega), rfl, rfl⟩

/-- Witness for `write_all_or_nothing`: a write to an empty buffer is appended
in full. -/
theorem write_all_or_nothing_witness :
    (logBufferWrite [] [1, 2, 3]).1 = [] ++ [1, 2, 3] :=
  (write_all_or_nothing [] [1, 2, 3]).1 (by decide)

/-- Counterexample to claim C2: a buffer already holding exactly `maxSize`
bytes accepts a further 1-byte write in full — prior size + 1 exceeds 1 MiB,
yet nothing is dropped, the buffer ends up holding more than 1 MiB, and the
write still reports `(1, nil)`. -/
theorem cap_exceeded_counterexample :
    ((logBufferWrite (List.replicate maxSize 0) [0]).1).length = maxSize + 1
    ∧ (logBufferWrite (List.replicate maxSize 0) [0]).2 = (1, none) := by
  have h : ¬ (List.replicate maxSize 0).length > maxSize := by
    rw [List.length_replicate]
    exact lt_irrefl maxSize
  rw [logBufferWrite, if_neg h]
  exact ⟨by rw [List.length_append, List.length_replicate, List.length_singleton], rfl⟩

lemma writeAll_length_le (ps : List (List Nat)) (L : Nat) (h : ∀ p ∈ ps, p.length ≤ L) :
    ∀ buf : List Nat, buf.length ≤ maxSize + L → (writeAll buf ps).length ≤ maxSize + L := by
  induction ps with
  | nil =>
    intro buf hb
    simpa [writeAll] using hb
  | cons p t ih =>
    intro buf hb
    have hp : p.length ≤ L := h p (by simp)
    have ht : ∀ q ∈ t, q.length ≤ L := fun q hq => h q (by simp [hq])
    have hstep : ((logBufferWrite buf p).1).length ≤ maxSize + L := by
      unfold logBufferWrite
      split
      · exact hb
      · next hle =>
        simp only [List.length_append]
        omega
    simpa [writeAll] using ih ht (logBufferWrite buf p).1 hstep

/-- Claim C2 as amended: a write is dropped in its entirety exactly when the
buffered size at entry strictly exceeds 1 MiB and is otherwise appended in
full (so the buffer can exceed the cap by up to one write, and never by more
than the largest single write), while `Write` always reports `(len(p), nil)`. -/
theorem cap_drop_semantics (ps : List (List Nat)) (L : Nat)
    (h : ∀ p ∈ ps, p.length ≤ L) :
    (writeAll [] ps).length ≤ maxSize + L
    ∧ ∀ buf p, (logBufferWrite buf p).2 = (p.length, none) := by
  refine ⟨writeAll_length_le ps L h [] (by simp), ?_⟩
  intro buf p
  unfold logBufferWrite
  split <;> rfl

/-- Witness for `cap_drop_semantics`: two small writes stay within the
amended bound. -/
theorem cap_drop_semantics_witness :
    (writeAll [] [[1, 2], [3]]).length ≤ maxSize + 2
    ∧ ∀ buf p, (logBufferWrite buf p).2 = (p.length, none) :=
  cap_drop_semantics [[1, 2], [3]] 2 (by decide)

/-- Counterexample to claim C8: on a platform without firewall support the
response body is "firewall not supported" followed by a newline — Go's
`http.Error` appends one — not the bare string the claim states. -/
theorem fw_unsupported_body_newline :
    addFirewallHandler none = ⟨500, "firewall not supported\n"⟩
    ∧ "firewall not supported\n" ≠ "firewall not supported" :=
  ⟨rfl, by decide⟩

/-- Claim C8 as amended: `/fw` answers 500 with body "firewall not supported"
plus a trailing newline when the platform hook is absent, 500 with the error
text plus a trailing newline when the hook fails, and 200 with body "OK\n"
when it succeeds. -/
theorem fw_handler_responses (fw : Option (Unit → Option String)) :
    (fw = none → addFirewallHandler fw = ⟨500, "firewall not supported\n"⟩)
    ∧ (∀ f e, fw = some f → f () = some e → addFirewallHandler fw = ⟨500, e ++ "\n"⟩)
    ∧ (∀ f, fw = some f → f () = none → addFirewallHandler fw = ⟨200, "OK\n"⟩) := by
  refine ⟨?_, ?_, ?_⟩
  · rintro rfl
    rfl
  · rintro f e rfl hf
    simp [addFirewallHandler, hf, httpError]
  · rintro f rfl hf
    simp [addFirewallHandler, hf]

/-- Witness for `fw_handler_responses`: a succeeding firewall hook yields 200
and "OK\n". -/
theorem fw_handler_responses_witness :
    addFirewallHandler (some fun _ => none) = ⟨200, "OK\n"⟩ :=
  (fw_handler_responses (some fun _ => none)).2.2 (fun _ => none) rfl rfl

/-- Counterexample to claim C7: a closed intake channel that still buffers a
conn makes `Accept` return that conn with no error, so "returns an error if
and only if the channel has been closed" fails in the only-if direction. -/
theorem accept_closed_buffered :
    (Chan.mk [7] true).closed = true
    ∧ chanListenerAccept ⟨[7], true⟩ = some (⟨[], true⟩, Except.ok 7) :=
  ⟨rfl, rfl⟩

/-- Claim C7 as amended: `Accept` returns the terminal "closed" error exactly
when the intake channel is closed and drained; while a buffered conn remains
it is returned without error, and an open empty channel blocks. -/
theorem accept_error_iff_closed_drained (ch : Chan) :
    (chanListenerAccept ch = some (ch, Except.error "closed")
        ↔ ch.closed = true ∧ ch.queue = [])
    ∧ (chanListenerAccept ch = none ↔ ch.closed = false ∧ ch.queue = [])
    ∧ (∀ c rest, ch.queue = c :: rest →
        chanListenerAccept ch = some (⟨rest, ch.closed⟩, Except.ok c)) := by
  obtain ⟨q, cl⟩ := ch
  cases q with
  | nil => cases cl <;> simp [chanListenerAccept, chanRecv]
  | cons c rest => cases cl <;> simp [chanListenerAccept, chanRecv]

/-- Witness for `accept_error_iff_closed_drained`: the closed drained channel
produces the terminal error. -/
theorem accept_error_iff_closed_drained_witness :
    chanListenerAccept ⟨[], true⟩ = some (⟨[], true⟩, Except.error "closed") :=
  (accept_error_iff_closed_drained ⟨[], true⟩).1.mpr ⟨rfl, rfl⟩

lemma foldl_failStep_lastErr (es : List String) (st : SupLog) :
    (es.foldl failStep st).lastErr = (es.getLast?).getD st.lastErr := by
  induction es generalizing st with
  | nil => rfl
  | cons a t ih =>
    cases t with
    | nil => simp [failStep]
    | cons b u =>
      rw [List.foldl_cons, ih, List.getLast?_cons_cons]
      obtain ⟨x, hx⟩ := Option.isSome_iff_exists.mp
        (List.getLast?_isSome.mpr (List.cons_ne_nil b u))
      rw [hx]
      rfl

lemma failStep_good (st : SupLog) (s : String) (h : goodLog st) :
    goodLog (failStep st s) := by
  unfold goodLog failStep
  by_cases hs : s = st.lastErr
  · rw [if_neg (not_not.mpr hs)]
    dsimp only
    cases h with
    | inl h1 =>
      exact Or.inl (by rw [hs]; exact h1)
    | inr h2 =>
      exact Or.inr (hs.trans h2)
  · rw [if_pos hs]
    dsimp only
    exact Or.inl (by simp)

lemma foldl_failStep_good (es : List String) (st : SupLog) (h : goodLog st) :
    goodLog (es.foldl failStep st) := by
  induction es generalizing st with
  | nil => exact h
  | cons a t ih => exact ih (failStep st a) (failStep_good st a h)

/-- Claim C6: across any sequence of dial failures (whose error texts, coming
from `net.Dial`, are never the empty string that `lastErr` starts as),
`lastErr` ends up equal both to the last failure's text and to the most
recently logged failure text; an identical consecutive failure adds no log
line, and a failure whose text differs from `lastErr` is always logged. -/
theorem dial_failure_logging (es : List String) (hne : es ≠ [])
    (h : ∀ s ∈ es, s ≠ "") :
    (failRun es).logged.getLast? = some (failRun es).lastErr
    ∧ es.getLast? = some (failRun es).lastErr
    ∧ (∀ st s, (failStep (failStep st s) s).logged = (failStep st s).logged)
    ∧ (∀ st s, s ≠ st.lastErr → (failStep st s).logged = st.logged ++ [s]) := by
  have hlast : (failRun es).lastErr = (es.getLast?).getD "" :=
    foldl_failStep_lastErr es ⟨"", []⟩
  obtain ⟨a, ha⟩ := Option.isSome_iff_exists.mp (List.getLast?_isSome.mpr hne)
  have hmem : a ∈ es := by
    obtain ⟨hh, heq⟩ := List.mem_getLast?_eq_getLast (Option.mem_def.mpr ha)
    rw [heq]
    exact List.getLast_mem hh
  have hlasta : (failRun es).lastErr = a := by rw [hlast, ha]; rfl
  have hgood := foldl_failStep_good es ⟨"", []⟩ (Or.inr rfl)
  refine ⟨?_, by rw [hlasta]; exact ha, ?_, ?_⟩
  · cases hgood with
    | inl h1 => exact h1
    | inr h2 => exact absurd (hlasta.symm.trans h2) (h a hmem)
  · intro st s
    simp [failStep]
  · intro st s hdiff
    simp [failStep, hdiff]

/-- Witness for `dial_failure_logging`: two identical failures then a changed
one. -/
theorem dial_failure_logging_witness :
    (failRun ["a", "a", "b"]).logged.getLast? = some (failRun ["a", "a", "b"]).lastErr :=
  (dial_failure_logging ["a", "a", "b"] (by decide) (by decide)).1

/-- Claim C5: in every reachable state at most one connection is in flight on
the capacity-1 intake channel, and while a delivered connection remains
unconsumed the supervisor is neither inside a dial nor holds a pending signal
that could start one. -/
theorem intake_capacity_one (s : Sys) (h : Reachable s) :
    s.intake.length ≤ 1
    ∧ (s.intake ≠ [] → s.sup ≠ SupPhase.sDial ∧ s.tracker.needConn = 0) := by
  have hw := weight_reachable h
  unfold weight at hw
  constructor
  · omega
  · intro hne
    have hlen : 1 ≤ s.intake.length := List.length_pos.mpr hne
    refine ⟨?_, by omega⟩
    intro hsup
    rw [hsup] at hw
    simp only [phaseW] at hw
    omega

/-- Witness for `intake_capacity_one`: the reachable state in which the first
dialed conn has been delivered but not yet consumed. -/
theorem intake_capacity_one_witness :
    sysDelivered.intake.length ≤ 1
    ∧ (sysDelivered.intake ≠ [] →
        sysDelivered.sup ≠ SupPhase.sDial ∧ sysDelivered.tracker.needConn = 0) :=
  intake_capacity_one sysDelivered reachable_sysDelivered

/-- Claim C1 is violated by the code: `sysStuck`, reached by the startup
signal being consumed and the first dial failing, has made exactly one dial
attempt, and in every continuation of the run — sleeping, waking, looping
back to `<-needConnCh`, and any conn-state activity — the dial count stays at
one forever: the failure consumed the only pending need-connection signal,
nothing re-sends it, and the supervisor never retries. -/
theorem dial_failure_stalls_supervisor :
    Reachable sysStuck ∧ sysStuck.dials = 1
    ∧ ∀ s, Relation.ReflTransGen Step sysStuck s → s.dials = 1 := by
  refine ⟨reachable_sysStuck, rfl, ?_⟩
  intro s hs
  exact (stuck_no_dial hs (by decide)).1

/-- Witness for `dial_failure_stalls_supervisor`: the stalled state itself. -/
theorem dial_failure_stalls_supervisor_witness : sysStuck.dials = 1 :=
  dial_failure_stalls_supervisor.2.2 sysStuck Relation.ReflTransGen.refl
